import Mathlib

/-!
Shallow embedding of the `reqwest-retry-after` crate (`src/lib.rs`), a
`reqwest` middleware that honours the `Retry-After` response header.

Modelling choices:
* `SystemTime` instants are integers of nanoseconds since the Unix epoch
  (negative means before the epoch).  The largest representable
  `SystemTime` on the supported platforms is `i64::MAX` seconds plus
  `999999999` nanoseconds past the epoch (a `timespec`); the Rust
  operator `SystemTime + Duration` aborts ("overflow when adding
  duration to instant") past that bound, which we model as an explicit
  `Panic` outcome.
* `Duration`s are natural numbers of nanoseconds.
* The `RwLock<HashMap<Url, SystemTime>>` ledger is an association list
  keyed by the full URL string; `HashMap::insert` / `remove` / `get`
  become replace / filter-out / first-find on that list.
* `next.run` (the downstream middleware or transport) is an input of
  `handle`: the `Result<Response>` it produced.  Clock reads are inputs
  too: `now` is the value of `SystemTime::now()` at line 77 of
  `lib.rs`, and `now2` its value inside `parse_retry_value` (line 58).
* RFC 2822 date parsing is done by the external `time` crate, so it is
  a parameter `dateParse` of the functions that use it; the conversion
  `OffsetDateTime -> SystemTime` is infallible, so `dateParse` yields
  the converted instant directly, and `none` when parsing fails.
* `handle` additionally records the trace of lock and sleep events it
  performs, in source order.  By Rust temporary-lifetime rules, the
  read guard produced by `self.retry_after.read().await` in the
  scrutinee of the `if let` at line 76 is dropped at the end of the
  whole `if let` statement, i.e. only after the
  `tokio::time::sleep(duration).await` at line 80 has completed; the
  trace therefore places the release of the read lock after the sleep.
-/

/-- Largest representable `SystemTime`: `i64::MAX` seconds and
`999999999` nanoseconds past the Unix epoch, in nanoseconds. -/
def systemTimeMax : Int := 9223372036854775807 * 1000000000 + 999999999

/-- `u64::MAX`. -/
def u64Max : Nat := 18446744073709551615

/-- `Duration::from_secs`, in nanoseconds. -/
def durationFromSecs (secs : Nat) : Nat := secs * 1000000000

/-- `SystemTime::checked_add`: `none` when the sum is not representable. -/
def systemTimeCheckedAdd (t : Int) (d : Nat) : Option Int :=
  if t + (d : Int) ≤ systemTimeMax then some (t + (d : Int)) else none

/-- `SystemTime::duration_since`: `Ok (self - earlier)` when
`earlier <= self` (a zero duration when they are equal), `Err` when
`earlier` is strictly later than `self`. -/
def durationSince (t earlier : Int) : Option Nat :=
  if earlier ≤ t then some (t - earlier).toNat else none

/-- Value of an ASCII digit; `none` on any other character. -/
def digitVal (c : Char) : Option Nat :=
  if c.isDigit then some (c.toNat - 48) else none

/-- Decimal accumulation over a character list: fails on the first
character that is not an ASCII digit. -/
def parseDecDigits : List Char → Nat → Option Nat
  | [], acc => some acc
  | c :: cs, acc =>
    match digitVal c with
    | some d => parseDecDigits cs (acc * 10 + d)
    | none => none

/-- `str::parse::<u64>`, i.e. `u64::from_str_radix(s, 10)`: an optional
single leading `+` sign followed by one or more ASCII digits, with the
value at most `u64::MAX`.  The empty string, a bare `+`, a `-` sign
(rejected for unsigned types), any other non-digit character, and
values above `u64::MAX` are all errors. -/
def u64FromDigits (ds : List Char) : Option Nat :=
  if ds = [] then none
  else
    match parseDecDigits ds 0 with
    | some n => if n ≤ u64Max then some n else none
    | none => none

/-- The digit part of `u64::from_str_radix`: strip a single leading `+`
(for unsigned types a `-` is just an invalid digit), then accumulate. -/
def u64FromStr (s : String) : Option Nat :=
  match s.data with
  | [] => none
  | c :: cs => u64FromDigits (if c = '+' then cs else c :: cs)

/-- A Rust panic; here only the `SystemTime + Duration` overflow abort
"overflow when adding duration to instant" can occur. -/
inductive Panic where
  | overflowAdd
  deriving DecidableEq

/-- `parse_retry_value` (`src/lib.rs` lines 56-64).  `now` is the value
read by `SystemTime::now()` inside the function; `dateParse` models the
external `time` crate's `OffsetDateTime::parse(val, &Rfc2822)` composed
with the infallible conversion into `SystemTime`.  The `+` of the
delay-seconds arm is Rust's `SystemTime + Duration`, which aborts when
the result is not representable. -/
def parse_retry_value (dateParse : String → Option Int) (now : Int)
    (val : String) : Except Panic (Option Int) :=
  match u64FromStr val with
  | some secs =>
    match systemTimeCheckedAdd now (durationFromSecs secs) with
    | some t => .ok (some t)
    | none => .error .overflowAdd
  | none =>
    match dateParse val with
    | some date => .ok (some date)
    | none => .ok none

/-- The ledger: the `HashMap<Url, SystemTime>` behind the `RwLock`, as
an association list from the full URL to the stored release instant. -/
abbrev Ledger := List (String × Int)

/-- `HashMap::get`. -/
def Ledger.get : Ledger → String → Option Int
  | [], _ => none
  | (k, v) :: l, url => if k = url then some v else Ledger.get l url

/-- `HashMap::remove`: drops any entry stored for `url`. -/
def Ledger.remove : Ledger → String → Ledger
  | [], _ => []
  | (k, v) :: l, url =>
    if k = url then Ledger.remove l url else (k, v) :: Ledger.remove l url

/-- `HashMap::insert`: stores `t` for `url`, replacing any prior entry. -/
def Ledger.insert (l : Ledger) (url : String) (t : Int) : Ledger :=
  (url, t) :: Ledger.remove l url

/-- `HashMap::is_empty`. -/
def Ledger.isEmpty (l : Ledger) : Bool := List.isEmpty l

/-- Number of entries the ledger holds for `url`. -/
def Ledger.countKey : Ledger → String → Nat
  | [], _ => 0
  | (k, _) :: l, url => (if k = url then 1 else 0) + Ledger.countKey l url

/-- `RetryAfterMiddleware::new` (`src/lib.rs` lines 43-47): the ledger
starts empty. -/
def RetryAfterMiddleware.new : Ledger := []

/-- A transport-level failure produced by the downstream stage; opaque
to the middleware. -/
structure TransportError where
  msg : String
  deriving DecidableEq

/-- The part of a `reqwest::Response` that `handle` inspects: the raw
bytes of its `Retry-After` header when present; `status` and `body`
stand for everything the middleware never touches. -/
structure Response where
  retryAfterBytes : Option (List Nat)
  status : Nat
  body : String
  deriving DecidableEq

/-- `http::HeaderValue::to_str`: succeeds iff every byte is visible
ASCII (32 to 126) or horizontal tab, yielding the decoded string. -/
def isVisibleAscii (b : Nat) : Bool := (32 ≤ b && b ≤ 126) || b == 9

/-- `http::HeaderValue::to_str` on the raw header bytes. -/
def headerValueToStr (bytes : List Nat) : Option String :=
  if bytes.all isVisibleAscii then some (String.mk (bytes.map Char.ofNat))
  else none

deriving instance DecidableEq for Except

/-- Lock and scheduling events `handle` performs, in source order. -/
inductive Event where
  | readLockAcquire
  | readLockRelease
  | sleepFor (d : Nat)
  | runNext
  | writeLockAcquire
  | writeLockRelease
  deriving DecidableEq

/-- What one invocation of `handle` does. -/
structure HandleOutcome where
  /-- the duration handed to `tokio::time::sleep`, when line 80 runs -/
  sleepDur : Option Nat
  /-- the ledger contents after the exchange -/
  ledger : Ledger
  /-- the value returned to the caller -/
  result : Except TransportError Response
  /-- the trace of lock and sleep events, in source order -/
  events : List Event
  deriving DecidableEq

/-- Lines 76-82: the duration slept before the request is forwarded,
when the guarded `tokio::time::sleep` runs at all.  The stored instant
is compared against `now` via `SystemTime::duration_since`, whose `Err`
(instant strictly earlier than `now`) skips the sleep; `Ok` — including
the zero duration produced when the instant equals `now` — sleeps. -/
def preSleep (ledger : Ledger) (url : String) (now : Int) : Option Nat :=
  match Ledger.get ledger url with
  | some timestamp => durationSince timestamp now
  | none => none

/-- The sleep event of the pre-request wait, when it happens. -/
def sleepEvents (s : Option Nat) : List Event :=
  match s with
  | some d => [.sleepFor d]
  | none => []

/-- The events of lines 76-84: the read guard taken in the `if let`
scrutinee is dropped at the end of the whole `if let`, hence only after
the sleep; then the request is forwarded. -/
def preEvents (ledger : Ledger) (url : String) (now : Int) : List Event :=
  .readLockAcquire :: (sleepEvents (preSleep ledger url now) ++
    [.readLockRelease, .runNext])

/-- `RetryAfterMiddleware::handle` (`src/lib.rs` lines 68-104).
Inputs: the current ledger contents, the request's URL, the two clock
readings (`now` at line 77, `now2` inside `parse_retry_value`), the
external date parser, and the `Result` produced by `next.run`. -/
def handle (ledger : Ledger) (url : String) (now now2 : Int)
    (dateParse : String → Option Int)
    (nextResult : Except TransportError Response) :
    Except Panic HandleOutcome :=
  match nextResult with
  | .error e =>
    .ok ⟨preSleep ledger url now, ledger, .error e, preEvents ledger url now⟩
  | .ok res =>
    match res.retryAfterBytes with
    | some bytes =>
      match headerValueToStr bytes with
      | some val =>
        match parse_retry_value dateParse now2 val with
        | .error p => .error p
        | .ok (some timestamp) =>
          .ok ⟨preSleep ledger url now, Ledger.insert ledger url timestamp,
            .ok res,
            preEvents ledger url now ++ [.writeLockAcquire, .writeLockRelease]⟩
        | .ok none =>
          .ok ⟨preSleep ledger url now, ledger, .ok res,
            preEvents ledger url now⟩
      | none =>
        .ok ⟨preSleep ledger url now, ledger, .ok res, preEvents ledger url now⟩
    | none =>
      .ok ⟨preSleep ledger url now, Ledger.remove ledger url, .ok res,
        preEvents ledger url now ++ [.writeLockAcquire, .writeLockRelease]⟩

/-- Declarative reading of a digit string, most significant digit first. -/
def natOfDigits (cs : List Char) : Nat :=
  cs.foldl (fun a c => a * 10 + (c.toNat - 48)) 0

theorem parseDecDigits_eq_some (cs : List Char) (acc n : Nat) :
    parseDecDigits cs acc = some n ↔
      (cs.all Char.isDigit = true ∧
        n = cs.foldl (fun a c => a * 10 + (c.toNat - 48)) acc) := by
  induction cs generalizing acc with
  | nil => simp [parseDecDigits, eq_comm]
  | cons c cs ih =>
    by_cases hc : c.isDigit
    · simp [parseDecDigits, digitVal, hc, ih]
    · simp [parseDecDigits, digitVal, hc]

theorem u64FromDigits_eq_some (ds : List Char) (n : Nat) :
    u64FromDigits ds = some n ↔
      (ds ≠ [] ∧ ds.all Char.isDigit = true ∧ natOfDigits ds = n ∧
        n ≤ u64Max) := by
  unfold u64FromDigits
  by_cases hne : ds = []
  · subst hne; simp
  · rw [if_neg hne]
    rcases hp : parseDecDigits ds 0 with _ | m
    · simp only [reduceCtorEq, false_iff]
      rintro ⟨-, hall, hfold, -⟩
      have hsome := (parseDecDigits_eq_some ds 0 (natOfDigits ds)).mpr ⟨hall, rfl⟩
      rw [hp] at hsome
      cases hsome
    · have hm := (parseDecDigits_eq_some ds 0 m).mp hp
      have hfold : natOfDigits ds = m := by
        unfold natOfDigits
        exact hm.2.symm
      change (if m ≤ u64Max then some m else none) = some n ↔ _
      by_cases hle : m ≤ u64Max
      · rw [if_pos hle]
        constructor
        · rintro h
          injection h with h
          subst h
          exact ⟨hne, hm.1, hfold, hle⟩
        · rintro ⟨-, -, hfold2, -⟩
          rw [← hfold2, hfold]
      · rw [if_neg hle]
        simp only [reduceCtorEq, false_iff]
        rintro ⟨-, -, hfold2, hnle⟩
        have hnm : m = n := hfold.symm.trans hfold2
        exact hle (by rw [hnm]; exact hnle)

theorem u64FromStr_eq_some (s : String) (n : Nat) :
    u64FromStr s = some n ↔
      (n ≤ u64Max ∧
        ((s.data ≠ [] ∧ s.data.all Char.isDigit = true ∧
            natOfDigits s.data = n)
          ∨ (∃ ds, s.data = '+' :: ds ∧ ds ≠ [] ∧
              ds.all Char.isDigit = true ∧ natOfDigits ds = n))) := by
  unfold u64FromStr
  rcases hd : s.data with _ | ⟨c, cs⟩
  · simp
  · change u64FromDigits (if c = '+' then cs else c :: cs) = some n ↔ _
    by_cases hc : c = '+'
    · subst hc
      rw [if_pos rfl, u64FromDigits_eq_some]
      constructor
      · rintro ⟨hne, hall, hfold, hle⟩
        exact ⟨hle, .inr ⟨cs, rfl, hne, hall, hfold⟩⟩
      · rintro ⟨hle, ⟨-, hall, -⟩ | ⟨ds, hds, hne, hall, hfold⟩⟩
        · rw [List.all_cons, Bool.and_eq_true] at hall
          exact absurd hall.1 (by decide)
        · injection hds with h1 h2
          subst h2
          exact ⟨hne, hall, hfold, hle⟩
    · rw [if_neg hc, u64FromDigits_eq_some]
      constructor
      · rintro ⟨hne, hall, hfold, hle⟩
        exact ⟨hle, .inl ⟨hne, hall, hfold⟩⟩
      · rintro ⟨hle, ⟨hne, hall, hfold⟩ | ⟨ds, hds, -, -, -⟩⟩
        · exact ⟨hne, hall, hfold, hle⟩
        · injection hds with h1 h2
          exact absurd h1 hc

theorem Ledger.get_insert_self (l : Ledger) (url : String) (t : Int) :
    Ledger.get (Ledger.insert l url t) url = some t := by
  simp [Ledger.insert, Ledger.get]

theorem Ledger.get_remove_self (l : Ledger) (url : String) :
    Ledger.get (Ledger.remove l url) url = none := by
  induction l with
  | nil => rfl
  | cons p l ih =>
    obtain ⟨k, v⟩ := p
    by_cases h : k = url
    · simpa [Ledger.remove, h] using ih
    · simpa [Ledger.remove, Ledger.get, h] using ih

theorem Ledger.countKey_remove_self (l : Ledger) (url : String) :
    Ledger.countKey (Ledger.remove l url) url = 0 := by
  induction l with
  | nil => rfl
  | cons p l ih =>
    obtain ⟨k, v⟩ := p
    by_cases h : k = url
    · simpa [Ledger.remove, h] using ih
    · simpa [Ledger.remove, Ledger.countKey, h] using ih

theorem Ledger.countKey_insert_self (l : Ledger) (url : String) (t : Int) :
    Ledger.countKey (Ledger.insert l url t) url = 1 := by
  simp [Ledger.insert, Ledger.countKey, Ledger.countKey_remove_self]

theorem preSleep_of_get_none {ledger : Ledger} {url : String} (now : Int)
    (h : Ledger.get ledger url = none) : preSleep ledger url now = none := by
  simp [preSleep, h]

theorem handle_sleepDur (ledger : Ledger) (url : String) (now now2 : Int)
    (dateParse : String → Option Int)
    (nextResult : Except TransportError Response) (out : HandleOutcome)
    (h : handle ledger url now now2 dateParse nextResult = .ok out) :
    out.sleepDur = preSleep ledger url now := by
  unfold handle at h
  repeat' split at h
  all_goals first
    | (injection h with h'; subst h'; rfl)
    | injection h

/-- C1 (amended): on entry `handle` looks up the stored release instant for
the request's URL.  If it is strictly later than `now`, the task sleeps
for exactly `instant - now` before the request is forwarded; if no instant
is stored, or the stored instant is strictly earlier than `now`, no sleep
at all happens and no error arises; if the stored instant equals `now`
exactly, the code performs a zero-duration sleep before forwarding. -/
theorem C1_pre_request_wait (ledger : Ledger) (url : String) (now now2 : Int)
    (dateParse : String → Option Int)
    (nextResult : Except TransportError Response) (out : HandleOutcome)
    (h : handle ledger url now now2 dateParse nextResult = .ok out) :
    (∀ t, Ledger.get ledger url = some t → now < t →
        out.sleepDur = some (t - now).toNat)
    ∧ (Ledger.get ledger url = none → out.sleepDur = none)
    ∧ (∀ t, Ledger.get ledger url = some t → t < now → out.sleepDur = none)
    ∧ (∀ t, Ledger.get ledger url = some t → t = now →
        out.sleepDur = some 0) := by
  have hs := handle_sleepDur ledger url now now2 dateParse nextResult out h
  refine ⟨?_, ?_, ?_, ?_⟩
  · intro t ht hlt
    rw [hs]
    simp [preSleep, ht, durationSince, hlt.le]
  · intro ht
    rw [hs]
    simp [preSleep, ht]
  · intro t ht hlt
    rw [hs]
    simp [preSleep, ht, durationSince, not_le.mpr hlt]
  · intro t ht heq
    subst heq
    rw [hs]
    simp [preSleep, ht, durationSince]

/-- C1 (counterexample): with the stored release instant exactly equal to
`now` (both `5`), the instant is not strictly later than `now`, yet the
code hands the zero duration produced by `duration_since` to
`tokio::time::sleep` — a zero-duration sleep, which the claim says must
not happen. -/
theorem C1_counterexample :
    ¬ (5 : Int) < 5
    ∧ handle [("a", 5)] "a" 5 0 (fun _ => none) (.ok ⟨none, 200, ""⟩)
        = .ok ⟨some 0, [], .ok ⟨none, 200, ""⟩,
            [.readLockAcquire, .sleepFor 0, .readLockRelease, .runNext,
             .writeLockAcquire, .writeLockRelease]⟩ := by
  decide

/-- C1 (witness): a concrete run with stored instant `7` and `now = 2`
sleeps exactly `7 - 2 = 5` nanoseconds before forwarding. -/
theorem C1_witness :
    (⟨some 5, [], Except.ok ⟨none, 200, ""⟩,
        [Event.readLockAcquire, Event.sleepFor 5, Event.readLockRelease,
         Event.runNext, Event.writeLockAcquire,
         Event.writeLockRelease]⟩ : HandleOutcome).sleepDur
      = some ((7 - 2 : Int)).toNat := by
  have hout : handle [("a", 7)] "a" 2 0 (fun _ => none) (.ok ⟨none, 200, ""⟩)
      = .ok ⟨some 5, [], .ok ⟨none, 200, ""⟩,
          [.readLockAcquire, .sleepFor 5, .readLockRelease, .runNext,
           .writeLockAcquire, .writeLockRelease]⟩ := by decide
  exact (C1_pre_request_wait _ _ _ _ _ _ _ hout).1 7 (by decide) (by decide)

/-- C2 (confirmed): when the response's Retry-After value decodes and
parses into a (future) instant `t`, `handle` stores exactly `t` for the
request's URL via `HashMap::insert`, unconditionally replacing any prior
entry, so exactly one instant is stored for that URL afterwards. -/
theorem C2_store_parsed_instant (ledger : Ledger) (url : String)
    (now now2 : Int) (dateParse : String → Option Int) (res : Response)
    (bytes : List Nat) (val : String) (t : Int)
    (hb : res.retryAfterBytes = some bytes)
    (hs : headerValueToStr bytes = some val)
    (hp : parse_retry_value dateParse now2 val = .ok (some t))
    (_hfut : now2 < t) :
    handle ledger url now now2 dateParse (.ok res)
      = .ok ⟨preSleep ledger url now, Ledger.insert ledger url t, .ok res,
          preEvents ledger url now ++ [.writeLockAcquire, .writeLockRelease]⟩
    ∧ Ledger.get (Ledger.insert ledger url t) url = some t
    ∧ Ledger.countKey (Ledger.insert ledger url t) url = 1 :=
  ⟨by simp only [handle, hb, hs, hp], Ledger.get_insert_self ledger url t,
    Ledger.countKey_insert_self ledger url t⟩

/-- C2 (witness): a response carrying `Retry-After: 5` (byte 53) at
`now2 = 0` replaces a prior entry `3` for the same URL by the parsed
instant `5000000000`, leaving exactly one entry for that URL. -/
theorem C2_witness :
    Ledger.get (Ledger.insert [("a", 3)] "a" 5000000000) "a"
      = some 5000000000
    ∧ Ledger.countKey (Ledger.insert [("a", 3)] "a" 5000000000) "a" = 1 := by
  have h := C2_store_parsed_instant [("a", 3)] "a" 0 0 (fun _ => none)
    ⟨some [53], 200, ""⟩ [53] "5" 5000000000 rfl (by decide) (by decide)
    (by decide)
  exact ⟨h.2.1, h.2.2⟩

/-- C3 (confirmed): a successful response with no Retry-After header makes
`handle` remove the ledger entry for the URL (a no-op when absent): the
lookup afterwards yields nothing and a subsequent `handle` for that URL
performs no sleep. -/
theorem C3_clear_on_absent_header (ledger : Ledger) (url : String)
    (now now2 : Int) (dateParse : String → Option Int) (res : Response)
    (hb : res.retryAfterBytes = none) :
    handle ledger url now now2 dateParse (.ok res)
      = .ok ⟨preSleep ledger url now, Ledger.remove ledger url, .ok res,
          preEvents ledger url now ++ [.writeLockAcquire, .writeLockRelease]⟩
    ∧ Ledger.get (Ledger.remove ledger url) url = none
    ∧ (∀ now' now2' dp' r' out',
        handle (Ledger.remove ledger url) url now' now2' dp' r' = .ok out' →
          out'.sleepDur = none) := by
  refine ⟨by simp only [handle, hb], Ledger.get_remove_self ledger url, ?_⟩
  intro now' now2' dp' r' out' h
  rw [handle_sleepDur _ _ _ _ _ _ _ h,
    preSleep_of_get_none now' (Ledger.get_remove_self ledger url)]

/-- C3 (witness): after a header-less response clears the entry `9` stored
for the URL, the lookup yields nothing and the next request runs with no
sleep. -/
theorem C3_witness :
    Ledger.get (Ledger.remove [("a", 9)] "a") "a" = none
    ∧ (⟨none, [], Except.ok ⟨none, 200, ""⟩,
        [Event.readLockAcquire, Event.readLockRelease, Event.runNext,
         Event.writeLockAcquire,
         Event.writeLockRelease]⟩ : HandleOutcome).sleepDur = none := by
  have h := C3_clear_on_absent_header [("a", 9)] "a" 0 0 (fun _ => none)
    ⟨none, 200, ""⟩ rfl
  exact ⟨h.2.1, h.2.2 1 1 (fun _ => none) (.ok ⟨none, 200, ""⟩)
    ⟨none, [], .ok ⟨none, 200, ""⟩,
      [.readLockAcquire, .readLockRelease, .runNext,
       .writeLockAcquire, .writeLockRelease]⟩ (by decide)⟩

/-- C4 (confirmed): a present Retry-After value that decodes to a string
but parses under neither encoding leaves the ledger exactly as it was
(no insert, no remove — a still-pending entry survives) and the response
is returned unchanged, not as a failure. -/
theorem C4_unparseable_value_frame (ledger : Ledger) (url : String)
    (now now2 : Int) (dateParse : String → Option Int) (res : Response)
    (bytes : List Nat) (val : String)
    (hb : res.retryAfterBytes = some bytes)
    (hs : headerValueToStr bytes = some val)
    (hp : parse_retry_value dateParse now2 val = .ok none) :
    handle ledger url now now2 dateParse (.ok res)
      = .ok ⟨preSleep ledger url now, ledger, .ok res,
          preEvents ledger url now⟩ := by
  simp only [handle, hb, hs, hp]

/-- C4 (witness): the unparseable value `"x"` (byte 120) leaves the prior
entry `9` for the URL in place and returns the response unchanged. -/
theorem C4_witness :
    handle [("a", 9)] "a" 0 0 (fun _ => none) (.ok ⟨some [120], 200, ""⟩)
      = .ok ⟨preSleep [("a", 9)] "a" 0, [("a", 9)],
          .ok ⟨some [120], 200, ""⟩, preEvents [("a", 9)] "a" 0⟩ :=
  C4_unparseable_value_frame [("a", 9)] "a" 0 0 (fun _ => none)
    ⟨some [120], 200, ""⟩ [120] "x" rfl (by decide) (by decide)

/-- C5 (confirmed): when the downstream stage fails, `handle` returns that
failure to the caller unchanged and the ledger after the exchange is
exactly the ledger it started the exchange with — no insert and no
remove happen on the error path. -/
theorem C5_transport_error_propagation (ledger : Ledger) (url : String)
    (now now2 : Int) (dateParse : String → Option Int)
    (e : TransportError) :
    handle ledger url now now2 dateParse (.error e)
      = .ok ⟨preSleep ledger url now, ledger, .error e,
          preEvents ledger url now⟩ := rfl

/-- C6 (counterexample): `"+5"` contains the non-digit character `+`, yet
Rust's `u64` parser accepts an optional leading `+` sign, so the numeric
stage succeeds with `now + 5` seconds instead of falling through to date
parsing or to returning nothing. -/
theorem C6_counterexample :
    Char.isDigit '+' = false
    ∧ parse_retry_value (fun _ => none) 0 "+5" = .ok (some 5000000000) := by
  decide

/-- C6 (amended): the numeric stage accepts exactly an optional single
leading `+` sign followed by one or more ASCII digits whose value is at
most `u64::MAX`; on success the parser returns `now` plus that many
seconds (when representable); when the numeric stage rejects the input —
negative, fractional or oversized values, the empty string, or any other
input with a character that is not a digit — the value falls through to
HTTP-date parsing or to returning nothing. -/
theorem C6_numeric_stage (s : String) (now : Int)
    (dateParse : String → Option Int) :
    (∀ n, u64FromStr s = some n ↔
      (n ≤ u64Max ∧
        ((s.data ≠ [] ∧ s.data.all Char.isDigit = true ∧
            natOfDigits s.data = n)
          ∨ (∃ ds, s.data = '+' :: ds ∧ ds ≠ [] ∧
              ds.all Char.isDigit = true ∧ natOfDigits ds = n))))
    ∧ (∀ n, u64FromStr s = some n →
        now + (durationFromSecs n : Int) ≤ systemTimeMax →
          parse_retry_value dateParse now s
            = .ok (some (now + (durationFromSecs n : Int))))
    ∧ (u64FromStr s = none →
        parse_retry_value dateParse now s = .ok (dateParse s)) := by
  refine ⟨fun n => u64FromStr_eq_some s n, ?_, ?_⟩
  · intro n hn hle
    simp [parse_retry_value, hn, systemTimeCheckedAdd, hle]
  · intro hn
    rcases hdp : dateParse s with _ | d <;>
      simp [parse_retry_value, hn, hdp]

/-- C6 (witness): the all-digit input `"7"` is accepted by the numeric
stage and yields `now + 7` seconds. -/
theorem C6_witness :
    parse_retry_value (fun _ => none) 0 "7"
      = .ok (some ((0 : Int) + (durationFromSecs 7 : Int))) := by
  have h := C6_numeric_stage "7" 0 (fun _ => none)
  exact h.2.1 7 (by decide) (by decide)

/-- C7 (confirmed): the middleware starts with an empty ledger; for any
URL with no stored entry the lookup yields nothing and no sleep is
performed; and an entry stored for a different URL never delays a
request, because the ledger key is the full request URL. -/
theorem C7_fresh_and_identity_scoped (url : String) (now now2 : Int)
    (dateParse : String → Option Int)
    (nextResult : Except TransportError Response) :
    Ledger.isEmpty RetryAfterMiddleware.new = true
    ∧ Ledger.get RetryAfterMiddleware.new url = none
    ∧ (∀ ledger out, Ledger.get ledger url = none →
        handle ledger url now now2 dateParse nextResult = .ok out →
          out.sleepDur = none)
    ∧ (∀ url' t out, url' ≠ url →
        handle [(url', t)] url now now2 dateParse nextResult = .ok out →
          out.sleepDur = none) := by
  refine ⟨rfl, rfl, ?_, ?_⟩
  · intro ledger out hget h
    rw [handle_sleepDur _ _ _ _ _ _ _ h, preSleep_of_get_none now hget]
  · intro url' t out hne h
    have hget : Ledger.get [(url', t)] url = none := by
      simp [Ledger.get, hne]
    rw [handle_sleepDur _ _ _ _ _ _ _ h, preSleep_of_get_none now hget]

/-- C7 (witness): the fresh ledger is empty, and a request to URL `"a"`
is not delayed by the instant `5` stored for the different URL `"b"`. -/
theorem C7_witness :
    Ledger.isEmpty RetryAfterMiddleware.new = true
    ∧ (⟨none, [("b", 5)], Except.ok ⟨none, 200, ""⟩,
        [Event.readLockAcquire, Event.readLockRelease, Event.runNext,
         Event.writeLockAcquire,
         Event.writeLockRelease]⟩ : HandleOutcome).sleepDur = none := by
  have h := C7_fresh_and_identity_scoped "a" 0 0 (fun _ => none)
    (.ok ⟨none, 200, ""⟩)
  exact ⟨h.1, h.2.2.2 "b" 5
    ⟨none, [("b", 5)], .ok ⟨none, 200, ""⟩,
      [.readLockAcquire, .readLockRelease, .runNext,
       .writeLockAcquire, .writeLockRelease]⟩ (by decide) (by decide)⟩

/-- C8 (code bug): contrary to the claim, the pre-request suspension runs
while the RwLock read guard is still held.  The guard created in the
scrutinee of the `if let` at line 76 is a temporary whose lifetime
extends to the end of the whole `if let` statement, so the
`tokio::time::sleep` at line 80 executes inside the read critical
section; in the trace the release of the read lock comes only after the
sleep, so concurrent invocations cannot write the ledger (and, with
tokio's fair RwLock, queued behind a writer cannot even read it) while
this task is waiting. -/
theorem C8_lock_held_during_sleep :
    handle [("a", 10)] "a" 0 0 (fun _ => none) (.ok ⟨none, 200, ""⟩)
      = .ok ⟨some 10, [], .ok ⟨none, 200, ""⟩,
          [.readLockAcquire, .sleepFor 10, .readLockRelease, .runNext,
           .writeLockAcquire, .writeLockRelease]⟩ := by
  decide

/-- C9 (counterexample): on the delay-seconds value `u64::MAX` the Rust
addition `SystemTime::now() + Duration::from_secs(secs)` overflows the
time representation and aborts (an `expect` on `checked_add`), so
`parse_retry_value` panics instead of returning. -/
theorem C9_counterexample :
    parse_retry_value (fun _ => none) 0 "18446744073709551615"
      = .error Panic.overflowAdd := by
  decide

/-- C9 (amended): `parse_retry_value` terminates on every input and
returns a value except in exactly one case: the input parses as
delay-seconds `n` and `now + n` seconds exceeds the largest representable
instant, where the `SystemTime + Duration` addition aborts with an
overflow panic. -/
theorem C9_total_or_overflow_abort (dateParse : String → Option Int)
    (now : Int) (s : String) :
    (∃ r, parse_retry_value dateParse now s = .ok r)
    ∨ (∃ n, u64FromStr s = some n
        ∧ systemTimeMax < now + (durationFromSecs n : Int)
        ∧ parse_retry_value dateParse now s = .error Panic.overflowAdd) := by
  rcases hn : u64FromStr s with _ | n
  · left
    rcases hdp : dateParse s with _ | d
    · exact ⟨none, by simp [parse_retry_value, hn, hdp]⟩
    · exact ⟨some d, by simp [parse_retry_value, hn, hdp]⟩
  · by_cases hle : now + (durationFromSecs n : Int) ≤ systemTimeMax
    · exact .inl ⟨some (now + (durationFromSecs n : Int)),
        by simp [parse_retry_value, hn, systemTimeCheckedAdd, hle]⟩
    · exact .inr ⟨n, rfl, not_le.mp hle,
        by simp [parse_retry_value, hn, systemTimeCheckedAdd, hle]⟩

/-- C10 (confirmed): when the Retry-After header is present but its raw
bytes are not visible ASCII (`to_str` fails), `handle` neither inserts
nor removes the ledger entry for the URL and returns the response
unchanged — exactly the treatment of an unparseable value. -/
theorem C10_invalid_header_bytes_frame (ledger : Ledger) (url : String)
    (now now2 : Int) (dateParse : String → Option Int) (res : Response)
    (bytes : List Nat)
    (hb : res.retryAfterBytes = some bytes)
    (hs : headerValueToStr bytes = none) :
    handle ledger url now now2 dateParse (.ok res)
      = .ok ⟨preSleep ledger url now, ledger, .ok res,
          preEvents ledger url now⟩ := by
  simp only [handle, hb, hs]

/-- C10 (witness): a header whose single byte `200` is not visible ASCII
leaves the prior entry `9` untouched and the response unchanged. -/
theorem C10_witness :
    handle [("a", 9)] "a" 0 0 (fun _ => none) (.ok ⟨some [200], 200, ""⟩)
      = .ok ⟨preSleep [("a", 9)] "a" 0, [("a", 9)],
          .ok ⟨some [200], 200, ""⟩, preEvents [("a", 9)] "a" 0⟩ :=
  C10_invalid_header_bytes_frame [("a", 9)] "a" 0 0 (fun _ => none)
    ⟨some [200], 200, ""⟩ [200] rfl (by decide)
